import Mathlib

/-!
Verification of the exponentiation circuit in src/src/lib.rs.

The circuit proves result = base ^ exponent over a prime field.  The trace
has three advice columns (Result, Exponent, Base, numbered 0, 1, 2 in the
order of the advice array built by ExpChip.configure), one selector column
and one instance column holding the public inputs [base, exponent, result].

The embedding below models:
  - the gate named exp registered in ExpChip.configure (expGate);
  - the witness assignment loop of ExpChip.assign (assignLoop, assign):
    row 0 is seeded from the instance column, the selector at row 0 is
    enabled unconditionally, then rows are filled by the recurrence until
    the exponent cell reaches 1, the selector being skipped at row i when
    the exponent at row i - 1 equals the literal 2; enabling the selector
    or assigning a cell at a row index at or beyond the usable height N is
    the backend error (modelled as result = none, keeping the rows that
    were assigned before the failure);
  - the copy constraints of assign and ExpCircuit.synthesize (synthesize);
  - the field-free circuit struct ExpCircuit and its synthesis entry point.

The witness loop is written with an explicit fuel argument equal to the
number of usable rows that remain after the current one (N - i), so that
the function is structurally recursive and computes by kernel reduction;
exhausting the fuel is exactly the condition i >= N of the backend error.
-/

/-- One occupied row of the execution trace: the values of the three advice
columns Result, Exponent and Base at that row. -/
structure Row (F : Type) where
  result : F
  exp : F
  base : F
deriving DecidableEq

/-- Outcome of the witness assignment of ExpChip.assign: the occupied rows
(row 0 first), the row indices at which the selector was enabled (in the
order the code enables them), and the value of the returned result cell;
result is none when the backend reported a row index out of range, in which
case rows and sels record what had been assigned before the failure. -/
structure AssignOut (F : Type) where
  rows : List (Row F)
  sels : List Nat
  result : Option F
deriving DecidableEq

variable {F : Type} [CommRing F] [DecidableEq F]

/-- The three polynomials of the gate named exp registered in
ExpChip.configure, in source order, evaluated at a selector value s, the
current row cur and the next row next:
  s * ((prev_running_result * prev_base) - current_result),
  s * ((prev_exp - curr_exp) - 1),
  s * (prev_base - curr_base). -/
def expGate (s : F) (cur next : Row F) : List F :=
  [ s * (cur.result * cur.base - next.result)
  , s * ((cur.exp - next.exp) - 1)
  , s * (cur.base - next.base) ]

/-- The while loop of ExpChip.assign.  prev is the last assigned row, i the
index of the row the loop would assign next, and fuel the number of usable
rows from index i on (so fuel = N - i where N is the usable height).  The
loop breaks as soon as the exponent cell of the previous row is 1; otherwise
it enables the selector at row i unless that exponent equals the literal 2,
and assigns row i by the recurrence (the base column is carried as
base + 0, exactly as the source adds F::zero()).  When the fuel is exhausted
and the loop has not broken, the selector enable or cell assignment at
row i is out of range and the backend error aborts the region. -/
def assignLoop (prev : Row F) (i : Nat) : Nat → AssignOut F
  | 0 =>
      if prev.exp = 1 then { rows := [], sels := [], result := some prev.result }
      else { rows := [], sels := [], result := none }
  | fuel + 1 =>
      if prev.exp = 1 then { rows := [], sels := [], result := some prev.result }
      else
        let next : Row F :=
          { result := prev.result * prev.base, exp := prev.exp - 1, base := prev.base + 0 }
        let rest := assignLoop next (i + 1) fuel
        { rows := next :: rest.rows
        , sels := (if prev.exp = 2 then [] else [i]) ++ rest.sels
        , result := rest.result }

/-- ExpChip.assign over a region of N usable rows, given the instance values
b (index 0, the base) and e (index 1, the exponent).  It enables the
selector at row 0 unconditionally, copies b into Result[0] and Base[0] and
e into Exponent[0], then runs the loop from row 1 with N - 1 rows of room.
A region with no usable row fails already at the selector enable of row 0. -/
def assign (N : Nat) (b e : F) : AssignOut F :=
  if N = 0 then { rows := [], sels := [], result := none }
  else
    let rest := assignLoop { result := b, exp := e, base := b } 1 (N - 1)
    { rows := { result := b, exp := e, base := b } :: rest.rows
    , sels := 0 :: rest.sels
    , result := rest.result }

/-- Index of the Result advice column (first entry of the advice array). -/
def resultCol : Nat := 0

/-- Index of the Exponent advice column (second entry of the advice array). -/
def exponentCol : Nat := 1

/-- Index of the Base advice column (third entry of the advice array). -/
def baseCol : Nat := 2

/-- The copy constraints created by the three assign_advice_from_instance
calls of ExpChip.assign, as pairs ((advice column, row), instance index):
Result[0] and Base[0] are copied from instance index 0, Exponent[0] from
instance index 1. -/
def assignCopies : List ((Nat × Nat) × Nat) :=
  [ ((resultCol, 0), 0), ((exponentCol, 0), 1), ((baseCol, 0), 0) ]

/-- ExpCircuit.synthesize: run ExpChip.assign, then expose_public adds one
more copy constraint equating the returned cell (Result column, last
occupied row) with instance index 2.  When assign fails, synthesis aborts
with the error and no further copy constraint is added. -/
def synthesize (N : Nat) (b e : F) :
    Option (AssignOut F × List ((Nat × Nat) × Nat)) :=
  let out := assign N b e
  match out.result with
  | none => none
  | some _ => some (out, assignCopies ++ [((resultCol, out.rows.length - 1), 2)])

/-- The circuit struct ExpCircuit: it has no fields at all (its only Rust
field is PhantomData, which holds no data), so it carries no witness. -/
structure ExpCircuit where

/-- ExpCircuit.without_witnesses returns the default (empty) value. -/
def ExpCircuit.without_witnesses (_ : ExpCircuit) : ExpCircuit := {}

/-- Synthesis as invoked by the backend on a circuit value: the source
method reads no data from self, so the circuit argument is unused. -/
def circuitSynthesize (_c : ExpCircuit) (N : Nat) (b e : F) :
    Option (AssignOut F × List ((Nat × Nat) × Nat)) :=
  synthesize N b e

/-- The trace row read at index i: the assigned row when i is occupied, and
the all-zero row otherwise (advice cells the region never assigned hold
zero when the backend evaluates the gate). -/
def rowAt (rows : List (Row F)) (i : Nat) : Row F :=
  rows.getD i { result := 0, exp := 0, base := 0 }

/-- Modelled from the spec: one step of the backend check run-mock-or-real-proof
(section 6 item f): at a selector-enabled row every polynomial of the gate
must evaluate to zero, the gate reading the current row and the next row. -/
def gateOk (rows : List (Row F)) (i : Nat) : Bool :=
  decide (expGate 1 (rowAt rows i) (rowAt rows (i + 1)) = [0, 0, 0])

/-- Modelled from the spec: the gate side of the backend check — the gate
polynomials vanish at every row where the assigner enabled the selector. -/
def checkGates (out : AssignOut F) : Bool :=
  out.sels.all (gateOk out.rows)

/-- The e-fold product b * b * ... * b: exponentiation by repeated
multiplication, the reference semantics the spec states for the circuit. -/
def iterMul (b : F) : Nat → F
  | 0 => 1
  | e + 1 => iterMul b e * b

lemma natCast_zmod_inj {p a b : Nat} (ha : a < p) (hb : b < p)
    (h : ((a : Nat) : ZMod p) = ((b : Nat) : ZMod p)) : a = b := by
  have h2 := congrArg ZMod.val h
  rwa [ZMod.val_cast_of_lt ha, ZMod.val_cast_of_lt hb] at h2

lemma natCast_zmod_ne_one {p a : Nat} (ha : a < p) (h2 : 2 ≤ a) :
    ((a : Nat) : ZMod p) ≠ 1 := by
  intro h
  rw [show (1 : ZMod p) = ((1 : Nat) : ZMod p) by simp] at h
  have := natCast_zmod_inj ha (by omega) h
  omega

lemma natCast_zmod_eq_two_iff {p a : Nat} (ha : a < p) (h2 : 2 ≤ a) :
    (((a : Nat) : ZMod p) = 2) ↔ a = 2 := by
  constructor
  · intro h
    rw [show (2 : ZMod p) = ((2 : Nat) : ZMod p) by simp] at h
    exact natCast_zmod_inj ha (by omega) h
  · intro h; rw [h]; simp

lemma range_map_cons {α : Type} (f : Nat → α) (k : Nat) :
    f 0 :: (List.range k).map (fun j => f (j + 1)) = (List.range (k + 1)).map f := by
  rw [List.range_succ_eq_map, List.map_cons, List.map_map]
  rfl

lemma getD_range_map {α : Type} (f : Nat → α) (e j : Nat) (d : α) (hj : j < e) :
    ((List.range e).map f).getD j d = f j := by
  rw [List.getD_eq_getElem?_getD, List.getElem?_map, List.getElem?_range hj]
  rfl

lemma assignLoop_ok (p : Nat) (k : Nat) :
    ∀ (f i : Nat) (r b : ZMod p), k + 1 < p → k ≤ f →
    assignLoop { result := r, exp := ((k + 1 : Nat) : ZMod p), base := b } i f =
      { rows := (List.range k).map (fun j =>
          { result := r * b ^ (j + 1), exp := ((k - j : Nat) : ZMod p), base := b })
      , sels := (List.range (k - 1)).map (fun j => i + j)
      , result := some (r * b ^ k) } := by
  induction k with
  | zero =>
    intro f i r b hp hf
    cases f with
    | zero => simp [assignLoop]
    | succ f => simp [assignLoop]
  | succ k ih =>
    intro f i r b hp hf
    obtain ⟨f, rfl⟩ : ∃ g, f = g + 1 := ⟨f - 1, by omega⟩
    have hne1 : ((k + 1 + 1 : Nat) : ZMod p) ≠ 1 := natCast_zmod_ne_one (by omega) (by omega)
    rw [assignLoop]
    rw [if_neg hne1]
    have hrow : ({ result := r * b, exp := ((k + 1 + 1 : Nat) : ZMod p) - 1, base := b + 0 } : Row (ZMod p)) =
        { result := r * b, exp := ((k + 1 : Nat) : ZMod p), base := b } := by
      have h1 : ((k + 1 + 1 : Nat) : ZMod p) - 1 = ((k + 1 : Nat) : ZMod p) := by
        push_cast
        ring
      rw [h1, add_zero]
    simp only [hrow]
    rw [ih f (i + 1) (r * b) b (by omega) (by omega)]
    simp only [AssignOut.mk.injEq]
    refine ⟨?_, ?_, ?_⟩
    · rw [← range_map_cons (fun j =>
        ({ result := r * b ^ (j + 1), exp := ((k + 1 - j : Nat) : ZMod p), base := b } : Row (ZMod p))) k]
      congr 1
      · simp
      · refine List.map_congr_left ?_
        intro j hj
        show ({ result := r * b * b ^ (j + 1), exp := ((k - j : Nat) : ZMod p), base := b } : Row (ZMod p)) =
          { result := r * b ^ (j + 1 + 1), exp := ((k + 1 - (j + 1) : Nat) : ZMod p), base := b }
        rw [show r * b * b ^ (j + 1) = r * b ^ (j + 1 + 1) from by ring,
          show (k - j : Nat) = k + 1 - (j + 1) from by omega]
    · simp only [Nat.add_sub_cancel]
      by_cases hk : k = 0
      · subst hk
        simp [natCast_zmod_eq_two_iff (p := p) (a := 2) (by omega) (by omega)]
      · rw [if_neg (by
          intro h
          have h2 := (natCast_zmod_eq_two_iff (p := p) (a := k + 1 + 1) (by omega) (by omega)).mp h
          omega)]
        obtain ⟨m, rfl⟩ : ∃ m, k = m + 1 := ⟨k - 1, by omega⟩
        simp only [Nat.add_sub_cancel]
        rw [← range_map_cons (fun j => i + j) m, List.singleton_append]
        congr 1
        refine List.map_congr_left ?_
        intro j hj
        show i + 1 + j = i + (j + 1)
        omega
    · congr 1
      ring

lemma assignLoop_err (p : Nat) :
    ∀ (f k i : Nat) (r b : ZMod p), k + 2 < p → f ≤ k →
    (assignLoop { result := r, exp := ((k + 2 : Nat) : ZMod p), base := b } i f).result = none ∧
    (assignLoop { result := r, exp := ((k + 2 : Nat) : ZMod p), base := b } i f).rows.length = f := by
  intro f
  induction f with
  | zero =>
    intro k i r b hp hf
    have hne1 : ((k + 2 : Nat) : ZMod p) ≠ 1 := natCast_zmod_ne_one (by omega) (by omega)
    rw [assignLoop, if_neg hne1]
    exact ⟨rfl, rfl⟩
  | succ f ih =>
    intro k i r b hp hf
    obtain ⟨m, rfl⟩ : ∃ m, k = m + 1 := ⟨k - 1, by omega⟩
    have hne1 : ((m + 1 + 2 : Nat) : ZMod p) ≠ 1 := natCast_zmod_ne_one (by omega) (by omega)
    rw [assignLoop, if_neg hne1]
    have hrow : ({ result := r * b, exp := ((m + 1 + 2 : Nat) : ZMod p) - 1, base := b + 0 } : Row (ZMod p)) =
        { result := r * b, exp := ((m + 2 : Nat) : ZMod p), base := b } := by
      have h1 : ((m + 1 + 2 : Nat) : ZMod p) - 1 = ((m + 2 : Nat) : ZMod p) := by
        push_cast
        ring
      rw [h1, add_zero]
    simp only [hrow]
    have h := ih m (i + 1) (r * b) b (by omega) (by omega)
    refine ⟨h.1, ?_⟩
    have h2 := h.2
    simp only [List.length_cons]
    omega

lemma assign_ok (p N e : Nat) (b : ZMod p) (h1 : 1 ≤ e) (hN : e ≤ N) (hp : e < p) :
    assign N b ((e : Nat) : ZMod p) =
      { rows := (List.range e).map (fun j =>
          { result := b ^ (j + 1), exp := ((e - j : Nat) : ZMod p), base := b })
      , sels := List.range (max (e - 1) 1)
      , result := some (b ^ e) } := by
  obtain ⟨k, rfl⟩ : ∃ k, e = k + 1 := ⟨e - 1, by omega⟩
  rw [assign, if_neg (by omega)]
  rw [assignLoop_ok p k (N - 1) 1 b b (by omega) (by omega)]
  simp only [AssignOut.mk.injEq]
  refine ⟨?_, ?_, ?_⟩
  · rw [← range_map_cons (fun j =>
      ({ result := b ^ (j + 1), exp := ((k + 1 - j : Nat) : ZMod p), base := b } : Row (ZMod p))) k]
    congr 1
    · simp
    · refine List.map_congr_left ?_
      intro j hj
      show ({ result := b * b ^ (j + 1), exp := ((k - j : Nat) : ZMod p), base := b } : Row (ZMod p)) =
        { result := b ^ (j + 1 + 1), exp := ((k + 1 - (j + 1) : Nat) : ZMod p), base := b }
      rw [show b * b ^ (j + 1) = b ^ (j + 1 + 1) from by ring,
        show (k - j : Nat) = k + 1 - (j + 1) from by omega]
  · simp only [Nat.add_sub_cancel]
    by_cases hk : k = 0
    · subst hk
      simp [List.range_succ]
    · obtain ⟨m, rfl⟩ : ∃ m, k = m + 1 := ⟨k - 1, by omega⟩
      have hmax : max (m + 1) 1 = m + 1 := by omega
      rw [hmax]
      simp only [Nat.add_sub_cancel]
      rw [List.range_succ_eq_map]
      congr 1
      refine List.map_congr_left ?_
      intro j hj
      show 1 + j = Nat.succ j
      omega
  · congr 1
    ring

lemma assign_err (p N e : Nat) (b : ZMod p) (hN : 1 ≤ N) (he : N < e) (hp : e < p) :
    (assign N b ((e : Nat) : ZMod p)).result = none ∧
    (assign N b ((e : Nat) : ZMod p)).rows.length = N := by
  obtain ⟨k, rfl⟩ : ∃ k, e = k + 2 := ⟨e - 2, by omega⟩
  rw [assign, if_neg (by omega)]
  have h := assignLoop_err p (N - 1) k 1 b b (by omega) (by omega)
  refine ⟨h.1, ?_⟩
  have h2 := h.2
  simp only [List.length_cons]
  omega

omit [DecidableEq F] in
lemma iterMul_eq_pow (b : F) (e : Nat) : iterMul b e = b ^ e := by
  induction e with
  | zero => simp [iterMul]
  | succ e ih => rw [iterMul, ih, pow_succ]

/-- C1: for every base b and integer exponent e with 1 ≤ e that fits in the
trace height (e ≤ N usable rows, and e < p so that e denotes a field
element faithfully), the cell returned by ExpChip.assign holds b ^ e
computed by repeated multiplication (the e-fold product). -/
theorem c1_assign_returns_repeated_product (p N e : Nat) (b : ZMod p)
    (h1 : 1 ≤ e) (hN : e ≤ N) (hp : e < p) :
    (assign N b ((e : Nat) : ZMod p)).result = some (iterMul b e) := by
  rw [assign_ok p N e b h1 hN hp, iterMul_eq_pow]

/-- C1 witness: the repository example 3 ^ 4 at 16 usable rows. -/
theorem c1_witness :
    (assign 16 (3 : ZMod 101) ((4 : Nat) : ZMod 101)).result = some (iterMul 3 4) :=
  c1_assign_returns_repeated_product 101 16 4 3 (by norm_num) (by norm_num) (by norm_num)

/-- C2: the gate consists of exactly three polynomials, each pre-multiplied
by the selector; at selector value 1 they all vanish exactly when
Result[i+1] = Result[i] * Base[i], Exponent[i+1] = Exponent[i] - 1 and
Base[i+1] = Base[i] hold, and at selector value 0 every polynomial is
identically zero, so the gate is a no-op there. -/
theorem c2_gate_constraints (G : Type) [CommRing G] (s : G) (cur next : Row G) :
    (expGate (1 : G) cur next = [0, 0, 0] ↔
      (next.result = cur.result * cur.base ∧ next.exp = cur.exp - 1 ∧ next.base = cur.base)) ∧
    expGate (0 : G) cur next = [0, 0, 0] ∧
    (expGate s cur next).length = 3 := by
  refine ⟨?_, by simp [expGate], by simp [expGate]⟩
  simp only [expGate, one_mul, List.cons.injEq, and_true]
  constructor
  · rintro ⟨h1, h2, h3⟩
    refine ⟨by linear_combination -h1, by linear_combination -h2, by linear_combination -h3⟩
  · rintro ⟨h1, h2, h3⟩
    refine ⟨by linear_combination -h1, by linear_combination -h2, by linear_combination -h3⟩

/-- C3: after synthesis the copy constraints are exactly: Result[0] and
Base[0] to instance index 0, Exponent[0] to instance index 1, and the
returned final Result cell — column Result at the last occupied row
e - 1 — to instance index 2; row 0 holds the copied base and exponent. -/
theorem c3_copy_constraints (p N e : Nat) (b : ZMod p)
    (h1 : 1 ≤ e) (hN : e ≤ N) (hp : e < p) :
    synthesize N b ((e : Nat) : ZMod p) =
      some (assign N b ((e : Nat) : ZMod p),
        [((resultCol, 0), 0), ((exponentCol, 0), 1), ((baseCol, 0), 0),
         ((resultCol, e - 1), 2)]) ∧
    (assign N b ((e : Nat) : ZMod p)).rows.length = e ∧
    rowAt (assign N b ((e : Nat) : ZMod p)).rows 0 =
      { result := b, exp := ((e : Nat) : ZMod p), base := b } := by
  have ha := assign_ok p N e b h1 hN hp
  refine ⟨?_, ?_, ?_⟩
  · rw [synthesize, ha]
    simp [assignCopies]
  · rw [ha]
    simp
  · rw [ha, rowAt, getD_range_map _ e 0 _ (by omega)]
    simp

/-- C3 witness: the copy constraints for the repository example 3 ^ 4. -/
theorem c3_witness :
    synthesize 16 (3 : ZMod 101) ((4 : Nat) : ZMod 101) =
      some (assign 16 (3 : ZMod 101) ((4 : Nat) : ZMod 101),
        [((resultCol, 0), 0), ((exponentCol, 0), 1), ((baseCol, 0), 0),
         ((resultCol, 4 - 1), 2)]) ∧
    (assign 16 (3 : ZMod 101) ((4 : Nat) : ZMod 101)).rows.length = 4 ∧
    rowAt (assign 16 (3 : ZMod 101) ((4 : Nat) : ZMod 101)).rows 0 =
      { result := 3, exp := ((4 : Nat) : ZMod 101), base := 3 } :=
  c3_copy_constraints 101 16 4 3 (by norm_num) (by norm_num) (by norm_num)

/-- C4 (amended): for every exponent e with 1 ≤ e ≤ N and e < p, the
selector-enabled rows are exactly List.range (max (e - 1) 1).  For e ≥ 2
this is the set of all e - 1 transition rows 0 .. e - 2, and the selector
is 0 at the final occupied row e - 1 and at every unused trailing row; in
the edge case e = 1, however, the unconditional enable of row 0 leaves the
selector 1 at row 0 even though row 0 is the final occupied row. -/
theorem c4_selector_rows (p N e : Nat) (b : ZMod p)
    (h1 : 1 ≤ e) (hN : e ≤ N) (hp : e < p) :
    (assign N b ((e : Nat) : ZMod p)).sels = List.range (max (e - 1) 1) ∧
    (assign N b ((e : Nat) : ZMod p)).rows.length = e := by
  rw [assign_ok p N e b h1 hN hp]
  simp

/-- C4 counterexample: at base 5 and exponent 1 the final occupied row is
row 0 (the trace has a single row) and the selector is enabled there,
contradicting the claim that the selector is 0 at the final occupied row
in the exponent = 1 edge case. -/
theorem c4_counterexample :
    (assign 16 (5 : ZMod 101) ((1 : Nat) : ZMod 101)).sels = [0] ∧
    (assign 16 (5 : ZMod 101) ((1 : Nat) : ZMod 101)).rows.length = 1 := by
  decide

/-- C4 witness: exponent 4 at 16 usable rows enables rows 0, 1, 2 only. -/
theorem c4_witness :
    (assign 16 (3 : ZMod 101) ((4 : Nat) : ZMod 101)).sels = List.range (max (4 - 1) 1) ∧
    (assign 16 (3 : ZMod 101) ((4 : Nat) : ZMod 101)).rows.length = 4 :=
  c4_selector_rows 101 16 4 3 (by norm_num) (by norm_num) (by norm_num)

/-- C5 (amended): the number of selector-enabled rows is e - 1 for every
exponent e ≥ 2 that fits the trace, but it is 1, not 0, in the edge case
e = 1 (the unconditional enable of row 0): uniformly, max (e - 1) 1. -/
theorem c5_active_row_count (p N e : Nat) (b : ZMod p)
    (h1 : 1 ≤ e) (hN : e ≤ N) (hp : e < p) :
    (assign N b ((e : Nat) : ZMod p)).sels.length = max (e - 1) 1 := by
  rw [assign_ok p N e b h1 hN hp]
  simp

/-- C5 counterexample: at exponent 1 the assigner enables one selector row,
not 1 - 1 = 0 as the claim requires. -/
theorem c5_counterexample :
    (assign 16 (5 : ZMod 101) ((1 : Nat) : ZMod 101)).sels.length ≠ 1 - 1 := by
  decide

/-- C5 witness: exponent 4 yields three selector-enabled rows. -/
theorem c5_witness :
    (assign 16 (2 : ZMod 101) ((4 : Nat) : ZMod 101)).sels.length = max (4 - 1) 1 :=
  c5_active_row_count 101 16 4 2 (by norm_num) (by norm_num) (by norm_num)

/-- C6: evaluation at the failing input of the claim.  For base 5 and
exponent 1 the assigner does produce zero transition rows with
Result[0] = Base[0] = 5 as the terminal value and returns that cell, but
it also enables the selector at row 0, so the gate is evaluated at row 0
against the unassigned (all-zero) row 1 and fails: the backend check
rejects, contradicting the claimed acceptance. -/
theorem c6_exponent_one_rejected :
    (assign 16 (5 : ZMod 101) ((1 : Nat) : ZMod 101)).rows =
      [{ result := 5, exp := 1, base := 5 }] ∧
    (assign 16 (5 : ZMod 101) ((1 : Nat) : ZMod 101)).result = some 5 ∧
    (assign 16 (5 : ZMod 101) ((1 : Nat) : ZMod 101)).sels = [0] ∧
    checkGates (assign 16 (5 : ZMod 101) ((1 : Nat) : ZMod 101)) = false := by
  decide

/-- C7 (amended): for every exponent e ≥ 2 that fits the trace, the row the
assigner leaves unselected is the terminal row e - 1 itself (the first
occupied row whose Exponent value is 1, reached when the previous row has
exponent 2), while the row immediately preceding the terminal row does get
its selector enabled. -/
theorem c7_terminal_row_unselected (p N e : Nat) (b : ZMod p)
    (h2 : 2 ≤ e) (hN : e ≤ N) (hp : e < p) :
    (rowAt (assign N b ((e : Nat) : ZMod p)).rows (e - 1)).exp = 1 ∧
    (∀ j, j < e - 1 → (rowAt (assign N b ((e : Nat) : ZMod p)).rows j).exp ≠ 1) ∧
    (e - 1) ∉ (assign N b ((e : Nat) : ZMod p)).sels ∧
    (e - 2) ∈ (assign N b ((e : Nat) : ZMod p)).sels := by
  rw [assign_ok p N e b (by omega) hN hp]
  have hmax : max (e - 1) 1 = e - 1 := by omega
  refine ⟨?_, ?_, ?_, ?_⟩
  · rw [rowAt, getD_range_map _ e (e - 1) _ (by omega)]
    show ((e - (e - 1) : Nat) : ZMod p) = 1
    rw [show (e - (e - 1) : Nat) = 1 from by omega]
    simp
  · intro j hj
    rw [rowAt, getD_range_map _ e j _ (by omega)]
    show ((e - j : Nat) : ZMod p) ≠ 1
    exact natCast_zmod_ne_one (by omega) (by omega)
  · rw [hmax]
    simp
  · rw [hmax]
    simp
    omega

/-- C7 counterexample: for exponent 4 the terminal row is row 3 (exponent
column values 4, 3, 2, 1), its immediately preceding row is row 2, and the
selector-enabled rows are exactly 0, 1 and 2 — so the selector is enabled
on the row immediately preceding the terminal row, contradicting the
claim. -/
theorem c7_counterexample :
    (assign 16 (3 : ZMod 101) ((4 : Nat) : ZMod 101)).rows.map (fun r => r.exp) =
      [4, 3, 2, 1] ∧
    (assign 16 (3 : ZMod 101) ((4 : Nat) : ZMod 101)).sels = [0, 1, 2] := by
  decide

/-- C7 witness: exponent 3 at base 7: terminal row 2 unselected, row 1
selected. -/
theorem c7_witness :
    (rowAt (assign 16 (7 : ZMod 101) ((3 : Nat) : ZMod 101)).rows (3 - 1)).exp = 1 ∧
    (∀ j, j < 3 - 1 → (rowAt (assign 16 (7 : ZMod 101) ((3 : Nat) : ZMod 101)).rows j).exp ≠ 1) ∧
    (3 - 1) ∉ (assign 16 (7 : ZMod 101) ((3 : Nat) : ZMod 101)).sels ∧
    (3 - 2) ∈ (assign 16 (7 : ZMod 101) ((3 : Nat) : ZMod 101)).sels :=
  c7_terminal_row_unselected 101 16 3 7 (by norm_num) (by norm_num) (by norm_num)

/-- C8 (amended): when the exponent e exceeds the usable trace height N,
the assigner reports the backend error — but it is raised during
assignment, after all N usable rows have been filled, not before
assignment is attempted; no truncated witness is silently returned as a
success. -/
theorem c8_capacity_error (p N e : Nat) (b : ZMod p)
    (hN : 1 ≤ N) (he : N < e) (hp : e < p) :
    (assign N b ((e : Nat) : ZMod p)).result = none ∧
    (assign N b ((e : Nat) : ZMod p)).rows.length = N :=
  assign_err p N e b hN he hp

/-- C8 counterexample: with 16 usable rows and exponent 20, the assigner
fills all 16 rows before the out-of-range row aborts the region, so the
error is not raised before attempting assignment; the error (result none)
is reported rather than a truncated witness being silently accepted. -/
theorem c8_counterexample :
    (assign 16 (3 : ZMod 101) ((20 : Nat) : ZMod 101)).result = none ∧
    (assign 16 (3 : ZMod 101) ((20 : Nat) : ZMod 101)).rows.length = 16 := by
  decide

/-- C8 witness: 10 usable rows and exponent 18 over ZMod 103. -/
theorem c8_witness :
    (assign 10 (2 : ZMod 103) ((18 : Nat) : ZMod 103)).result = none ∧
    (assign 10 (2 : ZMod 103) ((18 : Nat) : ZMod 103)).rows.length = 10 :=
  c8_capacity_error 103 10 18 2 (by norm_num) (by norm_num) (by norm_num)

/-- C10: the circuit type carries no private witness data — any two values
of ExpCircuit are equal, without_witnesses returns the same value — so two
synthesis runs on equal public inputs produce identical advice values,
selector rows and copy constraints. -/
theorem c10_witness_free_determinism (p N : Nat) (b e : ZMod p)
    (c1 c2 : ExpCircuit) :
    c1 = c2 ∧
    ExpCircuit.without_witnesses c1 = c1 ∧
    circuitSynthesize c1 N b e = circuitSynthesize c2 N b e := by
  cases c1
  cases c2
  exact ⟨rfl, rfl, rfl⟩

/-- C9: for exponent 0 the loop guard treats 0 as non-terminal (0 is
neither 1 nor 2 in the field when p > 2), so the assigner enables the
selector at row 1, assigns Exponent[1] = 0 - 1 — which is the field
element p - 1 — and keeps assigning decremented rows until the region
capacity N is exhausted, at which point the backend error is reported;
there is no exponent-0 rejection path. -/
theorem c9_exponent_zero_wraps (p N : Nat) (b : ZMod p)
    (hp : 2 < p) (hN : 2 ≤ N) (hNp : N < p) :
    (assign N b (0 : ZMod p)).result = none ∧
    1 ∈ (assign N b (0 : ZMod p)).sels ∧
    (rowAt (assign N b (0 : ZMod p)).rows 1).exp = (0 : ZMod p) - 1 ∧
    (0 : ZMod p) - 1 = ((p - 1 : Nat) : ZMod p) ∧
    (assign N b (0 : ZMod p)).rows.length = N := by
  obtain ⟨f, hf⟩ : ∃ f, N - 1 = f + 1 := ⟨N - 2, by omega⟩
  have h01 : ¬((0 : ZMod p) = 1) := by
    rw [show (0 : ZMod p) = ((0 : Nat) : ZMod p) from by simp,
      show (1 : ZMod p) = ((1 : Nat) : ZMod p) from by simp]
    intro h
    have h2 := natCast_zmod_inj (p := p) (a := 0) (b := 1) (by omega) (by omega) h
    omega
  have h02 : ¬((0 : ZMod p) = 2) := by
    rw [show (0 : ZMod p) = ((0 : Nat) : ZMod p) from by simp,
      show (2 : ZMod p) = ((2 : Nat) : ZMod p) from by simp]
    intro h
    have h2 := natCast_zmod_inj (p := p) (a := 0) (b := 2) (by omega) (by omega) h
    omega
  have hm1 : ((p - 1 : Nat) : ZMod p) = (0 : ZMod p) - 1 := by
    rw [Nat.cast_sub (by omega)]
    simp
  have hrow : ({ result := b * b, exp := (0 : ZMod p) - 1, base := b + 0 } : Row (ZMod p)) =
      { result := b * b, exp := ((p - 3 + 2 : Nat) : ZMod p), base := b } := by
    rw [add_zero, show (p - 3 + 2 : Nat) = p - 1 from by omega, hm1]
  have herr := assignLoop_err p f (p - 3) 2 (b * b) b (by omega) (by omega)
  have hA : assign N b (0 : ZMod p) =
      { rows := { result := b, exp := (0 : ZMod p), base := b } ::
          { result := b * b, exp := ((p - 3 + 2 : Nat) : ZMod p), base := b } ::
          (assignLoop { result := b * b, exp := ((p - 3 + 2 : Nat) : ZMod p), base := b } 2 f).rows
      , sels := 0 :: 1 ::
          (assignLoop { result := b * b, exp := ((p - 3 + 2 : Nat) : ZMod p), base := b } 2 f).sels
      , result :=
          (assignLoop { result := b * b, exp := ((p - 3 + 2 : Nat) : ZMod p), base := b } 2 f).result } := by
    rw [assign, if_neg (by omega), hf, assignLoop]
    rw [if_neg h01]
    rw [if_neg h02]
    rw [hrow]
    rfl
  rw [hA]
  refine ⟨herr.1, by simp, ?_, hm1.symm, ?_⟩
  · rw [rowAt]
    simp only [List.getD_cons_succ, List.getD_cons_zero]
    rw [show (p - 3 + 2 : Nat) = p - 1 from by omega, hm1]
  · simp only [List.length_cons]
    have h2 := herr.2
    omega

/-- C9 witness: exponent 0 over ZMod 101 with 16 usable rows. -/
theorem c9_witness :
    (assign 16 (5 : ZMod 101) (0 : ZMod 101)).result = none ∧
    1 ∈ (assign 16 (5 : ZMod 101) (0 : ZMod 101)).sels ∧
    (rowAt (assign 16 (5 : ZMod 101) (0 : ZMod 101)).rows 1).exp = (0 : ZMod 101) - 1 ∧
    (0 : ZMod 101) - 1 = ((101 - 1 : Nat) : ZMod 101) ∧
    (assign 16 (5 : ZMod 101) (0 : ZMod 101)).rows.length = 16 :=
  c9_exponent_zero_wraps 101 16 5 (by norm_num) (by norm_num) (by norm_num)

/-- C2 witness: the gate evaluated on the rows 3, 4, 3 and 9, 3, 3 of the
repository example. -/
theorem c2_witness :
    (expGate (1 : ZMod 101) { result := 3, exp := 4, base := 3 }
        { result := 9, exp := 3, base := 3 } = [0, 0, 0] ↔
      ((9 : ZMod 101) = 3 * 3 ∧ (3 : ZMod 101) = 4 - 1 ∧ (3 : ZMod 101) = 3)) ∧
    expGate (0 : ZMod 101) { result := 3, exp := 4, base := 3 }
      { result := 9, exp := 3, base := 3 } = [0, 0, 0] ∧
    (expGate (7 : ZMod 101) { result := 3, exp := 4, base := 3 }
      { result := 9, exp := 3, base := 3 }).length = 3 :=
  c2_gate_constraints (ZMod 101) 7 { result := 3, exp := 4, base := 3 }
    { result := 9, exp := 3, base := 3 }

/-- C10 witness: two circuit values synthesized on the public inputs of the
repository example. -/
theorem c10_witness :
    ({} : ExpCircuit) = {} ∧
    ExpCircuit.without_witnesses {} = ({} : ExpCircuit) ∧
    circuitSynthesize {} 16 (3 : ZMod 101) ((4 : Nat) : ZMod 101) =
      circuitSynthesize {} 16 (3 : ZMod 101) ((4 : Nat) : ZMod 101) :=
  c10_witness_free_determinism 101 16 3 ((4 : Nat) : ZMod 101) {} {}
